import Mathlib

/-!
# Configuration bootstrap of the `aft` command (cmd/root.go)

The program under study is the Go file `cmd/root.go`: the package variable
`cfgFile`, the function `init` that registers the root command's persistent
flags and the initializer, and the function `initConfig` that prepares the
viper resolver, enables environment lookup and tries to read a config file.

`init` and `initConfig` are embedded statement by statement.  The calls they
make into the libraries (viper, pflag, cobra, os, fmt) are embedded as small
functions on an explicit state, each following the library function of the
same name.  Everything that depends on the machine the process runs on (home
directory, file system, environment) is a field of `World`.
-/

namespace AftCli

/-! ## Go standard library -/

/-- Go `strings.ToUpper`, on the ASCII range (every option name of the program is ASCII). -/
def toUpper (s : String) : String := ⟨s.data.map Char.toUpper⟩

/-- Go `strings.ToLower`, on the ASCII range. -/
def toLower (s : String) : String := ⟨s.data.map Char.toLower⟩

/-- Go `fmt.Fprintln` applied to two string operands: what one call writes.
A blank is always put between operands and a newline is appended. -/
def sprintln (a b : String) : String := a ++ " " ++ b ++ "\n"

/-- Scan of `filepath.Ext` over the reversed path: stop at the first separator,
return the suffix from the first dot met. -/
def extScan : List Char → List Char → String
  | [], _ => ""
  | c :: rest, acc =>
    if c = '/' then "" else if c = '.' then ⟨'.' :: acc⟩ else extScan rest (c :: acc)

/-- Go `filepath.Ext` (with `/` as the separator): the suffix beginning at the
final dot of the final path element. -/
def ext (path : String) : String := extScan path.data.reverse []

/-- Go `strconv.ParseBool`: `none` stands for its syntax error. -/
def parseBool (s : String) : Option Bool :=
  if s = "1" ∨ s = "t" ∨ s = "T" ∨ s = "TRUE" ∨ s = "true" ∨ s = "True" then some true
  else if s = "0" ∨ s = "f" ∨ s = "F" ∨ s = "FALSE" ∨ s = "false" ∨ s = "False" then some false
  else none

/-- The conversion `cast.ToBool` on a string: `strconv.ParseBool`, false on an error. -/
def castToBool (s : String) : Bool := (parseBool s).getD false

/-- Textual form of a Go bool (`strconv.FormatBool`). -/
def formatBool (b : Bool) : String := if b then "true" else "false"

/-! ## Data model -/

/-- A value handed out by the resolver. -/
inductive Value where
  | str (s : String)
  | bool (b : Bool)
  deriving DecidableEq, Repr

/-- A flat key/value layer of the resolver (the option names have no key delimiter). -/
abbrev Config := List (String × Value)

/-- A `pflag.Flag`: the value is kept in its textual form (`Value.String()`),
with the name of its type (`Value.Type()`). -/
structure Flag where
  name : String
  shorthand : String
  usage : String
  typ : String
  value : String
  defValue : String
  noOptDefVal : String
  changed : Bool
  deriving DecidableEq, Repr

/-- The functions handed to `cobra.OnInitialize`; this program has one. -/
inductive Initializer where
  | initConfig
  deriving DecidableEq, Repr

/-- The global viper instance.  The fields are those of `viper.Viper` that a
lookup or a config read consults; the fields that no statement of this program
can move from what `viper.New()` gives (aliases, key delimiter, env key
replacer, allowEmptyEnv, remote providers, custom finder, the logger, which
discards) stay at that value and are left out. -/
structure Viper where
  configFile : String
  configPaths : List String
  configName : String
  configType : String
  envPrefix : String
  automaticEnvApplied : Bool
  override : Config
  pflags : List (String × String)
  env : List (String × List String)
  config : Config
  kvstore : Config
  defaults : Config
  deriving DecidableEq, Repr

/-- What the machine answers to the process: the parts of the operating system
and of the decoders that the program calls but does not define. -/
structure World where
  /-- Result of `os.UserHomeDir()`. -/
  userHomeDir : Except String String
  /-- Viper's `absPathify`: the cleaned absolute form of a directory (depends on the working directory). -/
  absPathify : String → String
  /-- Viper's search of one directory for a file of the given config name and type. -/
  searchInPath : String → String → String → Option String
  /-- Reading a file: its content or an error. -/
  readFile : String → Except String String
  /-- Decoding file content in the given format. -/
  decode : String → String → Except String Config
  /-- Result of `os.LookupEnv`. -/
  lookupEnv : String → Option String

/-- The process state the two functions act on. -/
structure State where
  /-- The package variable `cfgFile`. -/
  cfgFile : String
  /-- The flags of `rootCmd.PersistentFlags()`, in the order they were added. -/
  flags : List Flag
  /-- The functions registered with `cobra.OnInitialize`. -/
  initializers : List Initializer
  /-- The global viper instance. -/
  viper : Viper
  /-- What was written to `os.Stderr`, one entry for each write. -/
  stderr : List String
  /-- What was written to `os.Stdout`, one entry for each write. -/
  stdout : List String
  deriving DecidableEq, Repr

/-- How a function of the program ends: it returns, or the process exits (`os.Exit`). -/
inductive Outcome where
  | returned (s : State)
  | exited (code : Nat) (s : State)
  deriving DecidableEq, Repr

/-- Sequencing: what follows runs only when the first part returned. -/
def Outcome.bind (o : Outcome) (f : State → Outcome) : Outcome :=
  match o with
  | .returned s => f s
  | .exited c s => .exited c s

/-- The state an outcome ends in. -/
def Outcome.state : Outcome → State
  | .returned s => s
  | .exited _ s => s

/-- Whether the function returned to its caller. -/
def Outcome.isReturned : Outcome → Bool
  | .returned _ => true
  | .exited _ _ => false

/-- The exit status, when the process exited. -/
def Outcome.exitCode : Outcome → Option Nat
  | .returned _ => none
  | .exited c _ => some c

/-! ## viper -/

/-- Viper's `SupportedExts`. -/
def SupportedExts : List String :=
  ["json", "toml", "yaml", "yml", "properties", "props", "prop", "hcl", "tfvars",
   "dotenv", "env", "ini"]

/-- The instance `viper.New()` builds. -/
def Viper.New : Viper :=
  { configFile := "", configPaths := [], configName := "config", configType := "",
    envPrefix := "", automaticEnvApplied := false, override := [], pflags := [],
    env := [], config := [], kvstore := [], defaults := [] }

/-- `viper.SetConfigFile`: an empty argument is ignored. -/
def Viper.SetConfigFile (v : Viper) (file : String) : Viper :=
  if file ≠ "" then { v with configFile := file } else v

/-- `viper.AddConfigPath`: an empty argument is ignored; the directory is made
absolute and appended unless it is on the list already. -/
def Viper.AddConfigPath (w : World) (v : Viper) (dir : String) : Viper :=
  if dir ≠ "" then
    let absin := w.absPathify dir
    if absin ∈ v.configPaths then v else { v with configPaths := v.configPaths ++ [absin] }
  else v

/-- `viper.SetConfigType`: an empty argument is ignored. -/
def Viper.SetConfigType (v : Viper) (t : String) : Viper :=
  if t ≠ "" then { v with configType := t } else v

/-- `viper.SetConfigName`: an empty argument is ignored; the cached config file is dropped. -/
def Viper.SetConfigName (v : Viper) (n : String) : Viper :=
  if n ≠ "" then { v with configName := n, configFile := "" } else v

/-- `viper.AutomaticEnv`. -/
def Viper.AutomaticEnv (v : Viper) : Viper :=
  { v with automaticEnvApplied := true }

/-- `viper.ConfigFileUsed`. -/
def Viper.ConfigFileUsed (v : Viper) : String := v.configFile

/-- Viper's `findConfigFile`: the first search directory, in list order, that holds a match. -/
def Viper.findConfigFile (w : World) (v : Viper) : Option String :=
  v.configPaths.findSome? (fun dir => w.searchInPath dir v.configName v.configType)

/-- Viper's `getConfigFile`: the config file set, else the result of the search, which is cached. -/
def Viper.getConfigFile (w : World) (v : Viper) : Except String String × Viper :=
  if v.configFile = "" then
    match v.findConfigFile w with
    | none => (.error ("Config File \"" ++ v.configName ++ "\" Not Found"), v)
    | some cf => (.ok cf, { v with configFile := cf })
  else (.ok v.configFile, v)

/-- Viper's `getConfigType`, called once the config file is known: the type
set, else the extension of the config file without its dot. -/
def Viper.getConfigType (v : Viper) : String :=
  if v.configType ≠ "" then v.configType
  else
    let e := ext v.configFile
    if e.length > 1 then ⟨e.data.drop 1⟩ else ""

/-- `viper.ReadInConfig`: the error it returns (`none` for Go's nil) and the instance after it. -/
def Viper.ReadInConfig (w : World) (v : Viper) : Option String × Viper :=
  match v.getConfigFile w with
  | (.error e, v1) => (some e, v1)
  | (.ok filename, v1) =>
    if v1.getConfigType ∈ SupportedExts then
      match w.readFile filename with
      | .error e => (some e, v1)
      | .ok data =>
        match w.decode (toLower v1.getConfigType) data with
        | .error e => (some e, v1)
        | .ok cfg => (none, { v1 with config := cfg })
    else (some ("Unsupported Config Type \"" ++ v1.getConfigType ++ "\""), v1)

/-- Viper's `mergeWithEnvPrefix`: the environment variable name of a key. -/
def Viper.mergeWithEnvPrefix (v : Viper) (key : String) : String :=
  if v.envPrefix ≠ "" then toUpper (v.envPrefix ++ "_" ++ key) else toUpper key

/-- Viper's `getEnv`: a variable that is set to the empty string counts as unset. -/
def getEnv (w : World) (key : String) : Option String :=
  match w.lookupEnv key with
  | some val => if val ≠ "" then some val else none
  | none => none

/-- The first variable of a list that `getEnv` finds. -/
def firstEnv (w : World) : List String → Option String
  | [] => none
  | k :: ks =>
    match getEnv w k with
    | some val => some val
    | none => firstEnv w ks

/-- The value viper reads off a bound flag: converted by the flag's type. -/
def flagValue (f : Flag) (text : String) : Value :=
  if f.typ = "bool" then .bool (castToBool text) else .str text

/-- The flag bound to a key, if one is bound and registered. -/
def Viper.boundFlag (v : Viper) (flags : List Flag) (lcaseKey : String) : Option Flag :=
  match v.pflags.lookup lcaseKey with
  | none => none
  | some flagName => flags.find? (fun f => f.name = flagName)

/-- Viper's `find`: the layers in their order of precedence, override, changed
bound flag, environment, config file, key/value store, default, and last the
default of a bound flag. -/
def Viper.find (w : World) (flags : List Flag) (v : Viper) (lcaseKey : String)
    (flagDefault : Bool) : Option Value :=
  match v.override.lookup lcaseKey with
  | some val => some val
  | none =>
  match (v.boundFlag flags lcaseKey).filter (fun f => f.changed) with
  | some f => some (flagValue f f.value)
  | none =>
  match (if v.automaticEnvApplied then getEnv w (v.mergeWithEnvPrefix lcaseKey) else none) with
  | some val => some (.str val)
  | none =>
  match firstEnv w ((v.env.lookup lcaseKey).getD []) with
  | some val => some (.str val)
  | none =>
  match v.config.lookup lcaseKey with
  | some val => some val
  | none =>
  match v.kvstore.lookup lcaseKey with
  | some val => some val
  | none =>
  match v.defaults.lookup lcaseKey with
  | some val => some val
  | none =>
  if flagDefault then (v.boundFlag flags lcaseKey).map (fun f => flagValue f f.value)
  else none

/-- `viper.Get`: the key is lower-cased, then looked up. -/
def Viper.Get (w : World) (flags : List Flag) (v : Viper) (key : String) : Option Value :=
  v.find w flags (toLower key) true

/-! ## pflag and cobra -/

/-- `pflag.FlagSet.AddFlag`: `none` stands for the panic on a redefined flag
name, on a shorthand longer than one character and on a shorthand in use. -/
def AddFlag (flags : List Flag) (f : Flag) : Option (List Flag) :=
  if flags.any (fun g => g.name = f.name) then none
  else if f.shorthand = "" then some (flags ++ [f])
  else if f.shorthand.length > 1 then none
  else if flags.any (fun g => g.shorthand = f.shorthand) then none
  else some (flags ++ [f])

/-- `PersistentFlags().StringVar(&cfgFile, name, value, usage)`: the variable
takes the default, and a string flag without shorthand is added. -/
def StringVar (s : State) (name value usage : String) : Option State :=
  (AddFlag s.flags
    { name := name, shorthand := "", usage := usage, typ := "string", value := value,
      defValue := value, noOptDefVal := "", changed := false }).map
    (fun fl => { s with cfgFile := value, flags := fl })

/-- `PersistentFlags().StringP(name, shorthand, value, usage)`. -/
def StringP (s : State) (name shorthand value usage : String) : Option State :=
  (AddFlag s.flags
    { name := name, shorthand := shorthand, usage := usage, typ := "string", value := value,
      defValue := value, noOptDefVal := "", changed := false }).map
    (fun fl => { s with flags := fl })

/-- `PersistentFlags().BoolP(name, shorthand, value, usage)`. -/
def BoolP (s : State) (name shorthand : String) (value : Bool) (usage : String) : Option State :=
  (AddFlag s.flags
    { name := name, shorthand := shorthand, usage := usage, typ := "bool",
      value := formatBool value, defValue := formatBool value, noOptDefVal := "true",
      changed := false }).map
    (fun fl => { s with flags := fl })

/-- `pflag.FlagSet.Set`, what parsing does for a flag given on the command line:
the text is stored through the flag's value (parsed, for a bool), the flag is
marked changed; the `config` flag stores into the variable `cfgFile`. -/
def FlagSet.Set (s : State) (name value : String) : Except String State :=
  match s.flags.find? (fun f => f.name = name) with
  | none => .error ("no such flag -" ++ name)
  | some f =>
    if f.typ = "bool" then
      match parseBool value with
      | none => .error ("invalid argument \"" ++ value ++ "\" for --" ++ name)
      | some b =>
        .ok { s with flags := s.flags.map fun g =>
                if g.name = name then { g with value := formatBool b, changed := true } else g }
    else
      .ok { s with
        cfgFile := if name = "config" then value else s.cfgFile,
        flags := s.flags.map fun g =>
          if g.name = name then { g with value := value, changed := true } else g }

/-- `cobra.OnInitialize`: the function is appended to the initializers. -/
def OnInitialize (s : State) (f : Initializer) : State :=
  { s with initializers := s.initializers ++ [f] }

/-- `cobra.CheckErr`: on a non-nil error, writes `Error: msg` to standard error
and exits with status 1. -/
def CheckErr (err : Option String) (s : State) : Outcome :=
  match err with
  | none => .returned s
  | some msg => .exited 1 { s with stderr := s.stderr ++ [sprintln "Error:" msg] }

/-! ## cmd/root.go -/

/-- The state at process start, before any `init` function ran: `cfgFile` is the
zero string, `rootCmd` has no flag, viper is the fresh global instance. -/
def start : State :=
  { cfgFile := "", flags := [], initializers := [], viper := Viper.New,
    stderr := [], stdout := [] }

/-- The function `init` of root.go; `none` would be a panic while registering a flag. -/
def init (s : State) : Option State := do
  let s := OnInitialize s .initConfig
  let s ← StringVar s "config" "" "config file (default is $HOME/.aft.yaml)"
  let s ← StringP s "profile" "p" "" "AWS profile to use"
  let s ← StringP s "region" "r" "" "AWS region to use"
  let s ← StringP s "output" "o" "table" "output format (table, json, yaml)"
  let s ← BoolP s "verbose" "v" false "verbose output"
  let s ← BoolP s "quiet" "q" false "quiet output"
  pure s

/-- First statement of `initConfig` (the if/else on `cfgFile`): the explicit
file, or the home directory search. -/
def selectConfig (w : World) (s : State) : Outcome :=
  if s.cfgFile ≠ "" then
    .returned { s with viper := s.viper.SetConfigFile s.cfgFile }
  else
    match w.userHomeDir with
    | .error err => CheckErr (some err) s
    | .ok home =>
      (CheckErr none s).bind fun s =>
        let v := s.viper.AddConfigPath w home
        let v := v.AddConfigPath w "."
        let v := v.SetConfigType "yaml"
        let v := v.SetConfigName ".aft"
        .returned { s with viper := v }

/-- Last statement of `initConfig`: the read, and the line written when it gave no error. -/
def readAndReport (w : World) (s : State) : Outcome :=
  match s.viper.ReadInConfig w with
  | (none, v) =>
    .returned { s with
      viper := v,
      stderr := s.stderr ++ [sprintln "Using config file:" v.ConfigFileUsed] }
  | (some _, v) => .returned { s with viper := v }

/-- The function `initConfig` of root.go. -/
def initConfig (w : World) (s : State) : Outcome :=
  (selectConfig w s).bind fun s =>
    let s := { s with viper := s.viper.AutomaticEnv }
    readAndReport w s

/-! ## Observations on a run of `initConfig` -/

/-- The part of `initConfig` before the call of `viper.ReadInConfig`. -/
def beforeRead (w : World) (s : State) : Outcome :=
  (selectConfig w s).bind fun s => .returned { s with viper := s.viper.AutomaticEnv }

/-- What became of the config read in a run of `initConfig`. -/
inductive ReadResult where
  | notReached
  | failed (err : String)
  | loaded
  deriving DecidableEq, Repr

/-- The result of the call `viper.ReadInConfig()` that `initConfig` makes from a
given state, `notReached` when the process exits before the call. -/
def readResult (w : World) (s : State) : ReadResult :=
  match beforeRead w s with
  | .exited _ _ => .notReached
  | .returned s1 =>
    match (s1.viper.ReadInConfig w).1 with
    | none => .loaded
    | some err => .failed err

/-- Running `initConfig` again in the same process, when the first run returned. -/
def initConfigTwice (w : World) (s : State) : Outcome :=
  (initConfig w s).bind (initConfig w)

/-! ## Machines used as examples -/

/-- A machine with home directory `/home/u`, working directory `/work`, no
config file in either, and the file named on the command line missing. -/
def bareWorld : World :=
  { userHomeDir := .ok "/home/u",
    absPathify := fun p => if p = "." then "/work" else p,
    searchInPath := fun _ _ _ => none,
    readFile := fun f => .error ("open " ++ f ++ ": no such file or directory"),
    decode := fun _ _ => .ok [],
    lookupEnv := fun _ => none }

/-- A machine on which the home directory cannot be determined. -/
def homelessWorld : World :=
  { bareWorld with userHomeDir := .error "$HOME is not defined" }

/-- A machine whose home directory holds `.aft.yaml` with `profile: prod`. -/
def homeFileWorld : World :=
  { bareWorld with
    searchInPath := fun dir name _ =>
      if dir = "/home/u" ∧ name = ".aft" then some "/home/u/.aft.yaml" else none,
    readFile := fun f =>
      if f = "/home/u/.aft.yaml" then .ok "profile: prod\n"
      else .error ("open " ++ f ++ ": no such file or directory"),
    decode := fun _ data =>
      if data = "profile: prod\n" then .ok [("profile", .str "prod")]
      else .error "yaml: bad document" }

/-- The state after `init` and the parse of the given flags, in order. -/
def afterParse (args : List (String × String)) : Option State :=
  args.foldl
    (fun acc a => acc.bind fun s =>
      match FlagSet.Set s a.1 a.2 with
      | .ok s1 => some s1
      | .error _ => none)
    (init start)

/-- The state after `init` and the parse of the given flags; the start state
when a flag is refused (the process then ends before any initializer). -/
def parsed (args : List (String × String)) : State := (afterParse args).getD start

/-- A machine started in the home directory: the working directory is `/home/u`. -/
def atHomeWorld : World :=
  { bareWorld with absPathify := fun p => if p = "." then "/home/u" else p }

/-- The machine of `homeFileWorld` with the variable `PROFILE` set to `staging`. -/
def layeredWorld : World :=
  { homeFileWorld with lookupEnv := fun k => if k = "PROFILE" then some "staging" else none }

/-- A machine with the variable `AFT_REGION` set to `us-west-2` and no variable `REGION`. -/
def prefixedEnvWorld : World :=
  { bareWorld with lookupEnv := fun k => if k = "AFT_REGION" then some "us-west-2" else none }

/-- The text the flag set holds for a flag. -/
def flagText (s : State) (name : String) : Option String :=
  (s.flags.find? (fun f => f.name = name)).map (fun f => f.value)

/-! ## The config read in two steps -/

/-- The file a read works on: the config file set, else the one the search finds. -/
def Viper.located (w : World) (v : Viper) : Option String :=
  if v.configFile = "" then v.findConfigFile w else some v.configFile

/-- What a read makes of the file it works on: the decoded layer or the error. -/
def Viper.loadFrom (w : World) (v : Viper) (file : String) : Except String Config :=
  let t := Viper.getConfigType { v with configFile := file }
  if t ∈ SupportedExts then
    match w.readFile file with
    | .error e => .error e
    | .ok data => w.decode (toLower t) data
  else .error ("Unsupported Config Type \"" ++ t ++ "\"")

/-! ## Lemmas on the library calls -/

/-- The function `initConfig` is the part before the read followed by the read and its report. -/
theorem initConfig_eq (w : World) (s : State) :
    initConfig w s = (beforeRead w s).bind (readAndReport w) := by
  unfold initConfig beforeRead
  cases selectConfig w s <;> rfl

/-- With an explicit file the selection returns, and only the config file moved. -/
theorem selectConfig_explicit (w : World) (s : State) (h : s.cfgFile ≠ "") :
    selectConfig w s = .returned { s with viper := { s.viper with configFile := s.cfgFile } } := by
  simp [selectConfig, h, Viper.SetConfigFile]

/-- Without explicit file and without home directory the selection exits with status 1. -/
theorem selectConfig_homeless (w : World) (s : State) (err : String)
    (hcfg : s.cfgFile = "") (hhome : w.userHomeDir = .error err) :
    selectConfig w s = .exited 1 { s with stderr := s.stderr ++ [sprintln "Error:" err] } := by
  simp [selectConfig, hcfg, hhome, CheckErr]

/-- Without explicit file and with a home directory the selection returns after the four viper calls. -/
theorem selectConfig_search (w : World) (s : State) (home : String)
    (hcfg : s.cfgFile = "") (hhome : w.userHomeDir = .ok home) :
    selectConfig w s = .returned { s with viper := (Viper.SetConfigName
      (Viper.SetConfigType (Viper.AddConfigPath w (Viper.AddConfigPath w s.viper home) ".") "yaml")
      ".aft") } := by
  simp [selectConfig, hcfg, hhome, CheckErr, Outcome.bind]

/-- The selection writes nothing when it returns. -/
theorem selectConfig_streams (w : World) (s s1 : State) (h : selectConfig w s = .returned s1) :
    s1.stderr = s.stderr ∧ s1.stdout = s.stdout ∧ s1.cfgFile = s.cfgFile ∧ s1.flags = s.flags := by
  unfold selectConfig at h
  split at h
  · cases h; simp
  · split at h
    · simp [CheckErr] at h
    · simp [CheckErr, Outcome.bind] at h; cases h; simp

/-- The part before the read writes nothing when it returns. -/
theorem beforeRead_streams (w : World) (s s1 : State) (h : beforeRead w s = .returned s1) :
    s1.stderr = s.stderr ∧ s1.stdout = s.stdout ∧ s1.cfgFile = s.cfgFile ∧ s1.flags = s.flags := by
  unfold beforeRead at h
  cases hsel : selectConfig w s with
  | exited c s0 => simp [hsel, Outcome.bind] at h
  | returned s0 =>
    simp [hsel, Outcome.bind] at h
    have := selectConfig_streams w s s0 hsel
    cases h; simpa using this

/-- The read leaves everything but the cached config file and the loaded layer as it was. -/
theorem ReadInConfig_frame (w : World) (v : Viper) :
    ∃ f c, (v.ReadInConfig w).2 = { v with configFile := f, config := c } ∧
      (v.configFile ≠ "" → f = v.configFile) ∧
      (∀ e, (v.ReadInConfig w).1 = some e → c = v.config) := by
  unfold Viper.ReadInConfig Viper.getConfigFile
  by_cases hf : v.configFile = ""
  · simp only [hf, if_true]
    cases hfind : v.findConfigFile w with
    | none => exact ⟨"", v.config, by simp [hf.symm], by simp, by simp⟩
    | some cf =>
      simp only
      split
      · split
        · exact ⟨cf, v.config, by simp, by simp, by simp⟩
        · split
          · exact ⟨cf, v.config, by simp, by simp, by simp⟩
          · rename_i cfg _
            exact ⟨cf, cfg, by simp, by simp, by simp⟩
      · exact ⟨cf, v.config, by simp, by simp, by simp⟩
  · simp only [hf, if_false]
    split
    · split
      · exact ⟨v.configFile, v.config, by simp, by simp, by simp⟩
      · split
        · exact ⟨v.configFile, v.config, by simp, by simp, by simp⟩
        · rename_i cfg _
          exact ⟨v.configFile, cfg, by simp, by simp, by simp⟩
    · exact ⟨v.configFile, v.config, by simp, by simp, by simp⟩

/-- A directory on the list after `AddConfigPath` was there before or is the absolute form of the argument. -/
theorem mem_AddConfigPath (w : World) (v : Viper) (dir d : String)
    (h : d ∈ (v.AddConfigPath w dir).configPaths) : d ∈ v.configPaths ∨ d = w.absPathify dir := by
  unfold Viper.AddConfigPath at h
  split at h
  · simp only at h
    split at h
    · exact Or.inl h
    · simpa using h
  · exact Or.inl h

/-- `AddConfigPath` moves nothing but the list of search directories. -/
theorem AddConfigPath_frame (w : World) (v : Viper) (dir : String) :
    v.AddConfigPath w dir = { v with configPaths := (v.AddConfigPath w dir).configPaths } := by
  unfold Viper.AddConfigPath
  split
  · simp only
    split <;> rfl
  · rfl

/-- The state before the read on the search branch. -/
theorem beforeRead_search (w : World) (s : State) (home : String)
    (hcfg : s.cfgFile = "") (hhome : w.userHomeDir = .ok home) :
    beforeRead w s = .returned { s with viper :=
      { s.viper with
        configPaths := ((s.viper.AddConfigPath w home).AddConfigPath w ".").configPaths,
        configType := "yaml", configName := ".aft", configFile := "",
        automaticEnvApplied := true } } := by
  rw [beforeRead, selectConfig_search w s home hcfg hhome]
  rw [AddConfigPath_frame w (s.viper.AddConfigPath w home) ".", AddConfigPath_frame w s.viper home]
  simp [Outcome.bind, Viper.AutomaticEnv, Viper.SetConfigName, Viper.SetConfigType]

/-- The run on the explicit branch: it returns, and apart from the loaded layer
and the lines written the state is the one before the read. -/
theorem initConfig_explicit (w : World) (s : State) (hcfg : s.cfgFile ≠ "") :
    ∃ c lines, initConfig w s = .returned { s with
      viper := { s.viper with configFile := s.cfgFile, automaticEnvApplied := true, config := c },
      stderr := s.stderr ++ lines } := by
  have hb : beforeRead w s = .returned { s with viper :=
      { s.viper with configFile := s.cfgFile, automaticEnvApplied := true } } := by
    simp [beforeRead, selectConfig_explicit w s hcfg, Outcome.bind, Viper.AutomaticEnv]
  obtain ⟨f, c, hv, hf, _⟩ := ReadInConfig_frame w
    { s.viper with configFile := s.cfgFile, automaticEnvApplied := true }
  have hf' : f = s.cfgFile := hf hcfg
  subst hf'
  rw [initConfig_eq, hb]
  simp only [Outcome.bind, readAndReport]
  split
  · rename_i v hr
    rw [hr] at hv
    simp only at hv
    subst hv
    exact ⟨c, [_], rfl⟩
  · rename_i e v hr
    rw [hr] at hv
    simp only at hv
    subst hv
    exact ⟨c, [], by simp⟩

/-- `ReadInConfig` in two steps: locate the file, load it. -/
theorem ReadInConfig_eq (w : World) (v : Viper) :
    v.ReadInConfig w =
      match v.located w with
      | none => (some ("Config File \"" ++ v.configName ++ "\" Not Found"), v)
      | some file =>
        match v.loadFrom w file with
        | .error e => (some e, { v with configFile := file })
        | .ok cfg => (none, { v with configFile := file, config := cfg }) := by
  unfold Viper.ReadInConfig Viper.getConfigFile Viper.located Viper.loadFrom
  by_cases hf : v.configFile = ""
  · simp only [hf, if_true]
    cases v.findConfigFile w with
    | none => rfl
    | some cf =>
      simp only
      split
      · cases w.readFile cf with
        | error e => rfl
        | ok data => simp only
      · rfl
  · simp only [hf, if_false]
    have hv : { v with configFile := v.configFile } = v := rfl
    simp only [hv]
    split
    · cases w.readFile v.configFile with
      | error e => rfl
      | ok data => simp only
    · rfl

/-- A second read from the instance the first read left, with the config file
put back to what it was, gives the result of the first read. -/
theorem ReadInConfig_again (w : World) (v : Viper) :
    Viper.ReadInConfig w { (v.ReadInConfig w).2 with configFile := v.configFile } =
      v.ReadInConfig w := by
  have hloc : ∀ c, Viper.located w { v with config := c } = v.located w := fun _ => rfl
  have hload : ∀ c f, Viper.loadFrom w { v with config := c } f = v.loadFrom w f := fun _ _ => rfl
  rw [ReadInConfig_eq w v]
  cases hl : v.located w with
  | none => exact (ReadInConfig_eq w v).trans (by rw [hl])
  | some file =>
    simp only
    cases hd : v.loadFrom w file with
    | error e =>
      simp only
      exact (ReadInConfig_eq w v).trans (by rw [hl]; simp only [hd])
    | ok cfg =>
      simp only
      refine (ReadInConfig_eq w { v with config := cfg }).trans ?_
      rw [hloc, hl]
      simp only [hload, hd]

/-- A directory already listed makes `AddConfigPath` change nothing. -/
theorem AddConfigPath_listed (w : World) (v : Viper) (dir : String)
    (h : dir = "" ∨ w.absPathify dir ∈ v.configPaths) : v.AddConfigPath w dir = v := by
  unfold Viper.AddConfigPath
  rcases h with h | h
  · simp [h]
  · simp [h]

/-- After `AddConfigPath` the directory is listed, unless the argument was empty. -/
theorem AddConfigPath_lists (w : World) (v : Viper) (dir : String) :
    dir = "" ∨ w.absPathify dir ∈ (v.AddConfigPath w dir).configPaths := by
  unfold Viper.AddConfigPath
  by_cases hd : dir = ""
  · exact Or.inl hd
  · right
    simp only [ne_eq, hd, not_false_eq_true, if_true]
    split
    · assumption
    · simp

/-- `AddConfigPath` keeps the directories listed before. -/
theorem AddConfigPath_keeps (w : World) (v : Viper) (dir d : String) (h : d ∈ v.configPaths) :
    d ∈ (v.AddConfigPath w dir).configPaths := by
  unfold Viper.AddConfigPath
  split
  · simp only
    split
    · exact h
    · simp [h]
  · exact h

/-- From a state that differs from the one before the read only in the cached
config file and the loaded layer, the part before the read leads to the state
before the read again, the loaded layer kept. -/
theorem beforeRead_again (w : World) (s sb t : State) (f : String) (c : Config)
    (hb : beforeRead w s = .returned sb) (hcfg : t.cfgFile = s.cfgFile)
    (ht : t.viper = { sb.viper with configFile := f, config := c }) :
    beforeRead w t = .returned { t with viper := { sb.viper with config := c } } := by
  by_cases he : s.cfgFile = ""
  · cases hh : w.userHomeDir with
    | error err =>
      simp [beforeRead, selectConfig_homeless w s err he hh, Outcome.bind] at hb
    | ok home =>
      rw [beforeRead_search w s home he hh] at hb
      rw [beforeRead_search w t home (hcfg.trans he) hh]
      cases hb
      have hp : t.viper.configPaths =
          ((s.viper.AddConfigPath w home).AddConfigPath w ".").configPaths := by rw [ht]
      have h1 : t.viper.AddConfigPath w home = t.viper := by
        apply AddConfigPath_listed
        rcases AddConfigPath_lists w s.viper home with h | h
        · exact Or.inl h
        · right; rw [hp]; exact AddConfigPath_keeps w _ "." _ h
      have h2 : t.viper.AddConfigPath w "." = t.viper := by
        apply AddConfigPath_listed
        rcases AddConfigPath_lists w (s.viper.AddConfigPath w home) "." with h | h
        · exact Or.inl h
        · right; rw [hp]; exact h
      rw [h1, h2, hp, ht]
  · have hne : t.cfgFile ≠ "" := by rw [hcfg]; exact he
    simp only [beforeRead, selectConfig_explicit w s he, Outcome.bind, Viper.AutomaticEnv] at hb
    simp only [beforeRead, selectConfig_explicit w t hne, Outcome.bind, Viper.AutomaticEnv]
    cases hb
    rw [ht, hcfg]

/-- The last statement always returns; the instance is the one the read leaves. -/
theorem readAndReport_returns (w : World) (s : State) :
    ∃ lines, readAndReport w s =
      .returned { s with viper := (s.viper.ReadInConfig w).2, stderr := s.stderr ++ lines } := by
  unfold readAndReport
  split
  · rename_i v hr
    exact ⟨[_], by rw [hr]⟩
  · rename_i e v hr
    exact ⟨[], by rw [hr]; simp⟩

/-- A run that returns leaves the layers above and below the config file as
they were, keeps the env prefix, and has automatic env lookup on. -/
theorem initConfig_layers (w : World) (s s' : State) (h : initConfig w s = .returned s') :
    s'.viper.automaticEnvApplied = true ∧ s'.viper.envPrefix = s.viper.envPrefix ∧
    s'.viper.override = s.viper.override ∧ s'.viper.pflags = s.viper.pflags ∧
    s'.viper.env = s.viper.env ∧ s'.flags = s.flags := by
  by_cases he : s.cfgFile = ""
  · cases hh : w.userHomeDir with
    | error err =>
      simp [initConfig, selectConfig_homeless w s err he hh, Outcome.bind] at h
    | ok home =>
      rw [initConfig_eq, beforeRead_search w s home he hh] at h
      simp only [Outcome.bind] at h
      obtain ⟨lines, hr⟩ := readAndReport_returns w { s with viper :=
        { s.viper with
          configPaths := ((s.viper.AddConfigPath w home).AddConfigPath w ".").configPaths,
          configType := "yaml", configName := ".aft", configFile := "",
          automaticEnvApplied := true } }
      obtain ⟨f, c, hv, -, -⟩ := ReadInConfig_frame w
        { s.viper with
          configPaths := ((s.viper.AddConfigPath w home).AddConfigPath w ".").configPaths,
          configType := "yaml", configName := ".aft", configFile := "",
          automaticEnvApplied := true }
      rw [hr] at h
      cases h
      simp [hv]
  · obtain ⟨c, lines, hx⟩ := initConfig_explicit w s he
    rw [hx] at h
    cases h
    exact ⟨rfl, rfl, rfl, rfl, rfl, rfl⟩

/-- Setting a flag does not touch the resolver. -/
theorem Set_viper (s s' : State) (name value : String) (h : FlagSet.Set s name value = .ok s') :
    s'.viper = s.viper := by
  unfold FlagSet.Set at h
  split at h
  · cases h
  · split at h
    · split at h
      · cases h
      · cases h; rfl
    · cases h; rfl

/-- After `init` and the parse of any flags the resolver is the fresh instance. -/
theorem afterParse_viper (args : List (String × String)) (s : State)
    (h : afterParse args = some s) : s.viper = Viper.New := by
  have key : ∀ (l : List (String × String)) (acc : Option State),
      (∀ t, acc = some t → t.viper = Viper.New) →
      ∀ t, l.foldl
        (fun acc a => acc.bind fun s =>
          match FlagSet.Set s a.1 a.2 with
          | .ok s1 => some s1
          | .error _ => none) acc = some t → t.viper = Viper.New := by
    intro l
    induction l with
    | nil => intro acc hacc t ht; exact hacc t ht
    | cons a l ih =>
      intro acc hacc t ht
      simp only [List.foldl_cons] at ht
      refine ih _ ?_ t ht
      intro u hu
      cases acc with
      | none => simp at hu
      | some s0 =>
        simp only [Option.bind] at hu
        split at hu
        · rename_i s1 hs
          cases hu
          rw [Set_viper s0 _ _ _ hs]
          exact hacc s0 rfl
        · cases hu
  refine key args (init start) ?_ s h
  intro t ht
  have : (init start).map (fun s => s.viper) = some Viper.New := by decide
  rw [ht] at this
  simpa using this

/-- With automatic env lookup on, no prefix, no override and no bound flag, a
variable named by the upper-cased key that is set and not empty is the value looked up. -/
theorem Get_environment (w : World) (flags : List Flag) (v : Viper) (key val : String)
    (hauto : v.automaticEnvApplied = true) (hpre : v.envPrefix = "") (hov : v.override = [])
    (hpf : v.pflags = []) (henv : w.lookupEnv (toUpper (toLower key)) = some val)
    (hne : val ≠ "") : v.Get w flags key = some (.str val) := by
  simp [Viper.Get, Viper.find, Viper.boundFlag, Viper.mergeWithEnvPrefix, getEnv, hauto, hpre,
    hov, hpf, henv, hne]

/-- The config file after a read is the file located, when one is located. -/
theorem ReadInConfig_configFile (w : World) (v : Viper) (file : String)
    (h : v.located w = some file) : (v.ReadInConfig w).2.configFile = file := by
  rw [ReadInConfig_eq, h]
  simp only
  cases v.loadFrom w file <;> rfl

/-- Setting a flag leaves the text of every other flag as it was. -/
theorem Set_other (s s' : State) (name value other : String) (hne : name ≠ other)
    (h : FlagSet.Set s name value = .ok s') : flagText s' other = flagText s other := by
  have key : ∀ (txt : String) (l : List Flag),
      ((l.map fun g => if g.name = name then { g with value := txt, changed := true } else g).find?
        (fun f => f.name = other)).map (fun f => f.value) =
      (l.find? (fun f => f.name = other)).map (fun f => f.value) := by
    intro txt l
    induction l with
    | nil => rfl
    | cons g l ih =>
      by_cases hg : g.name = name
      · have hgo : g.name ≠ other := by rw [hg]; exact hne
        simp only [List.map_cons, List.find?_cons, hg, if_true, hne, decide_False]
        exact ih
      · by_cases hgo : g.name = other
        · have hon : ¬other = name := fun h => hg (hgo.trans h)
          simp [List.find?, hgo, hon]
        · simp only [List.map_cons, List.find?_cons, hg, if_false, hgo, decide_False]
          exact ih
  unfold FlagSet.Set at h
  split at h
  · cases h
  · split at h
    · split at h
      · cases h
      · cases h
        exact key _ _
    · cases h
      exact key _ _

/-- After `init` and the parse of flags other than a given one, that flag holds
the text it holds right after `init`. -/
theorem afterParse_other (other : String) (args : List (String × String)) (s : State)
    (hargs : ∀ a ∈ args, a.1 ≠ other) (h : afterParse args = some s) :
    flagText s other = flagText ((init start).getD start) other := by
  have key : ∀ (l : List (String × String)) (acc : Option State),
      (∀ a ∈ l, a.1 ≠ other) →
      (∀ t, acc = some t → flagText t other = flagText ((init start).getD start) other) →
      ∀ t, l.foldl
        (fun acc a => acc.bind fun s =>
          match FlagSet.Set s a.1 a.2 with
          | .ok s1 => some s1
          | .error _ => none) acc = some t →
        flagText t other = flagText ((init start).getD start) other := by
    intro l
    induction l with
    | nil => intro acc _ hacc t ht; exact hacc t ht
    | cons a l ih =>
      intro acc hl hacc t ht
      simp only [List.foldl_cons] at ht
      refine ih _ (fun b hb => hl b (List.mem_cons_of_mem _ hb)) ?_ t ht
      intro u hu
      cases acc with
      | none => simp at hu
      | some s0 =>
        simp only [Option.bind] at hu
        split at hu
        · rename_i s1 hs
          cases hu
          rw [Set_other s0 _ a.1 a.2 other (hl a (List.mem_cons_self _ _)) hs]
          exact hacc s0 rfl
        · cases hu
  refine key args (init start) hargs ?_ s h
  intro t ht
  rw [ht]
  rfl

/-! ## The claims -/

/-- C1, as amended.  When `cfgFile` is not empty and the config read returns an
error, `initConfig` returns normally: it does not exit, it writes nothing to
either stream, the resolver keeps the explicit path as its config file and
loads no layer. -/
theorem explicit_read_error_ignored (w : World) (s : State) (err : String)
    (hcfg : s.cfgFile ≠ "") (hread : readResult w s = .failed err) :
    ∃ s', initConfig w s = .returned s' ∧ s'.stderr = s.stderr ∧ s'.stdout = s.stdout ∧
      s'.viper.configFile = s.cfgFile ∧ s'.viper.config = s.viper.config := by
  have hb : beforeRead w s = .returned { s with viper :=
      { s.viper with configFile := s.cfgFile, automaticEnvApplied := true } } := by
    simp [beforeRead, selectConfig_explicit w s hcfg, Outcome.bind, Viper.AutomaticEnv]
  rw [initConfig_eq, hb]
  simp only [readResult, hb] at hread
  simp only [Outcome.bind, readAndReport]
  obtain ⟨f, c, hv, hf, hc⟩ := ReadInConfig_frame w
    { s.viper with configFile := s.cfgFile, automaticEnvApplied := true }
  split
  · rename_i v hr
    rw [hr] at hread
    simp at hread
  · rename_i e v hr
    rw [hr] at hv hc
    simp only at hv hc
    have hf1 := hf hcfg
    have hc1 := hc e rfl
    subst hv
    exact ⟨_, rfl, rfl, rfl, by simpa using hf1, by simpa using hc1⟩

/-- C1, witness: `--config /nonexistent/path.yaml` on a machine without that file. -/
theorem explicit_read_error_ignored_witness :
    ∃ s', initConfig bareWorld (parsed [("config", "/nonexistent/path.yaml")]) = .returned s' ∧
      s'.stderr = (parsed [("config", "/nonexistent/path.yaml")]).stderr ∧
      s'.stdout = (parsed [("config", "/nonexistent/path.yaml")]).stdout ∧
      s'.viper.configFile = (parsed [("config", "/nonexistent/path.yaml")]).cfgFile ∧
      s'.viper.config = (parsed [("config", "/nonexistent/path.yaml")]).viper.config :=
  explicit_read_error_ignored bareWorld (parsed [("config", "/nonexistent/path.yaml")])
    "open /nonexistent/path.yaml: no such file or directory" (by decide) (by decide)

/-- C1, counterexample.  After `init` and `--config /nonexistent/path.yaml`, on a
machine where that file does not exist, the read fails and `initConfig` returns
to its caller with no exit status and nothing written. -/
theorem explicit_missing_file_returns :
    (parsed [("config", "/nonexistent/path.yaml")]).cfgFile = "/nonexistent/path.yaml" ∧
    readResult bareWorld (parsed [("config", "/nonexistent/path.yaml")]) =
      .failed "open /nonexistent/path.yaml: no such file or directory" ∧
    (initConfig bareWorld (parsed [("config", "/nonexistent/path.yaml")])).isReturned = true ∧
    (initConfig bareWorld (parsed [("config", "/nonexistent/path.yaml")])).exitCode = none ∧
    (initConfig bareWorld (parsed [("config", "/nonexistent/path.yaml")])).state.stderr = [] := by
  decide

/-- C2, as amended.  For every command line and every key (so for profile,
region, output, verbose and quiet), after `init`, the parse and `initConfig`
no flag is bound to the resolver, and when the variable named by the
upper-cased key is set and not empty the lookup gives that environment value,
whatever the flags and the config file hold. -/
theorem lookup_gives_environment_value (args : List (String × String)) (w : World)
    (s s' : State) (key envVal : String)
    (hparse : afterParse args = some s) (hrun : initConfig w s = .returned s')
    (henv : w.lookupEnv (toUpper (toLower key)) = some envVal) (hne : envVal ≠ "") :
    s'.viper.pflags = [] ∧ s'.viper.Get w s'.flags key = some (.str envVal) := by
  have hnew := afterParse_viper args s hparse
  obtain ⟨hauto, hpre, hov, hpf, -, -⟩ := initConfig_layers w s s' hrun
  rw [hnew] at hpre hov hpf
  exact ⟨hpf, Get_environment w s'.flags s'.viper key envVal hauto hpre hov hpf henv hne⟩

/-- C2, witness: `--profile dev`, `PROFILE=staging`, `profile: prod` in `~/.aft.yaml`. -/
theorem lookup_gives_environment_value_witness :
    (initConfig layeredWorld (parsed [("profile", "dev")])).state.viper.pflags = [] ∧
    (initConfig layeredWorld (parsed [("profile", "dev")])).state.viper.Get layeredWorld
      (initConfig layeredWorld (parsed [("profile", "dev")])).state.flags "profile" =
      some (.str "staging") :=
  lookup_gives_environment_value [("profile", "dev")] layeredWorld (parsed [("profile", "dev")])
    (initConfig layeredWorld (parsed [("profile", "dev")])).state "profile" "staging"
    (by decide) (by decide) (by decide) (by decide)

/-- C2, counterexample.  With `--profile dev` on the command line, `PROFILE=staging`
in the environment and `profile: prod` in the loaded `~/.aft.yaml`, the flag
holds `dev`, the config layer holds `prod`, and the lookup of `profile` gives
`staging`, not the flag value. -/
theorem lookup_ignores_flag_value :
    ((parsed [("profile", "dev")]).flags.find? (fun f => f.name = "profile")).map
      (fun f => (f.value, f.changed)) = some ("dev", true) ∧
    layeredWorld.lookupEnv "PROFILE" = some "staging" ∧
    (initConfig layeredWorld (parsed [("profile", "dev")])).state.viper.config =
      [("profile", .str "prod")] ∧
    (initConfig layeredWorld (parsed [("profile", "dev")])).state.viper.Get layeredWorld
      (initConfig layeredWorld (parsed [("profile", "dev")])).state.flags "profile" =
      some (.str "staging") ∧
    (initConfig layeredWorld (parsed [("profile", "dev")])).state.viper.Get layeredWorld
      (initConfig layeredWorld (parsed [("profile", "dev")])).state.flags "profile" ≠
      some (.str "dev") := by
  decide

/-- C3, as amended.  When a run of `initConfig` returned, a second run from the
state it left returns too and leaves the same resolver (config file, search
directories, config name and type, env lookup, loaded layer); the read is made
again with the same result, and when it loads a file the diagnostic line is
written again. -/
theorem second_run_same_resolver_line_again (w : World) (s s1 : State)
    (h : initConfig w s = .returned s1) :
    ∃ s2, initConfigTwice w s = .returned s2 ∧ s2.viper = s1.viper ∧
      readResult w s1 = readResult w s ∧
      s2.stderr = s1.stderr ++
        (if readResult w s = .loaded then [sprintln "Using config file:" s1.viper.ConfigFileUsed]
         else []) := by
  unfold initConfigTwice
  rw [h]
  simp only [Outcome.bind]
  rw [initConfig_eq] at h
  cases hb : beforeRead w s with
  | exited c s0 => simp [hb, Outcome.bind] at h
  | returned sb =>
    obtain ⟨f, c, hv, -, -⟩ := ReadInConfig_frame w sb.viper
    have hagain := ReadInConfig_again w sb.viper
    rw [hv] at hagain
    have hs1 : s1.cfgFile = s.cfgFile ∧ s1.viper = (sb.viper.ReadInConfig w).2 := by
      obtain ⟨-, -, hc, -⟩ := beforeRead_streams w s sb hb
      simp only [hb, Outcome.bind, readAndReport] at h
      split at h
      · rename_i v hr
        cases h
        simp [hr, hc]
      · rename_i e v hr
        cases h
        simp [hr, hc]
    have hb1 := beforeRead_again w s sb s1 f c hb hs1.1 (hs1.2.trans hv)
    have hr1 : Viper.ReadInConfig w { sb.viper with config := c } = sb.viper.ReadInConfig w :=
      hagain
    rw [initConfig_eq, hb1]
    simp only [readResult, hb, hb1, hr1, Outcome.bind, readAndReport]
    cases hr : sb.viper.ReadInConfig w with
    | mk e v =>
      have hv1 : s1.viper = v := by rw [hs1.2, hr]
      cases e with
      | none => simp [hv1]
      | some err => simp [hv1]

/-- C3, witness: two runs on the machine whose home directory holds `.aft.yaml`. -/
theorem second_run_same_resolver_line_again_witness :
    ∃ s2, initConfigTwice homeFileWorld (parsed []) = .returned s2 ∧
      s2.viper = (initConfig homeFileWorld (parsed [])).state.viper ∧
      readResult homeFileWorld (initConfig homeFileWorld (parsed [])).state =
        readResult homeFileWorld (parsed []) ∧
      s2.stderr = (initConfig homeFileWorld (parsed [])).state.stderr ++
        (if readResult homeFileWorld (parsed []) = .loaded then
          [sprintln "Using config file:"
            (initConfig homeFileWorld (parsed [])).state.viper.ConfigFileUsed]
         else []) :=
  second_run_same_resolver_line_again homeFileWorld (parsed [])
    (initConfig homeFileWorld (parsed [])).state (by decide)

/-- C3, counterexample.  On the machine whose home directory holds `.aft.yaml`
one run writes the diagnostic line once, and two runs in a row write it twice. -/
theorem second_run_writes_line_again :
    (initConfig homeFileWorld (parsed [])).state.stderr = ["Using config file: /home/u/.aft.yaml\n"] ∧
    (initConfigTwice homeFileWorld (parsed [])).isReturned = true ∧
    (initConfigTwice homeFileWorld (parsed [])).state.stderr =
      ["Using config file: /home/u/.aft.yaml\n", "Using config file: /home/u/.aft.yaml\n"] := by
  decide

/-- C4.  When `cfgFile` is empty, the home directory lookup succeeds, and no
search directory holds a file named `.aft` of type yaml (not the home
directory, not the working directory, none listed before), `initConfig`
returns, the read having failed, with no config file recorded as used, no
layer loaded and nothing written to standard error or standard output. -/
theorem search_miss_returns_quietly (w : World) (s : State) (home : String)
    (hcfg : s.cfgFile = "") (hhome : w.userHomeDir = .ok home)
    (hlisted : ∀ dir ∈ s.viper.configPaths, w.searchInPath dir ".aft" "yaml" = none)
    (hhomeMiss : w.searchInPath (w.absPathify home) ".aft" "yaml" = none)
    (hcwdMiss : w.searchInPath (w.absPathify ".") ".aft" "yaml" = none) :
    ∃ s', initConfig w s = .returned s' ∧ s'.viper.ConfigFileUsed = "" ∧
      s'.stderr = s.stderr ∧ s'.stdout = s.stdout ∧ s'.viper.config = s.viper.config ∧
      ∃ err, readResult w s = .failed err := by
  have hb := beforeRead_search w s home hcfg hhome
  have hmiss : ∀ d ∈ ((s.viper.AddConfigPath w home).AddConfigPath w ".").configPaths,
      w.searchInPath d ".aft" "yaml" = none := by
    intro d hd
    rcases mem_AddConfigPath w _ "." d hd with h1 | h1
    · rcases mem_AddConfigPath w _ home d h1 with h2 | h2
      · exact hlisted d h2
      · rw [h2]; exact hhomeMiss
    · rw [h1]; exact hcwdMiss
  have hfind := List.findSome?_eq_none_iff.mpr hmiss
  rw [initConfig_eq, readResult, hb]
  simp [Outcome.bind, readAndReport, Viper.ReadInConfig, Viper.getConfigFile,
    Viper.findConfigFile, hfind, Viper.ConfigFileUsed]

/-- C4, witness: no flag on the command line, on a machine without any config file. -/
theorem search_miss_returns_quietly_witness :
    ∃ s', initConfig bareWorld (parsed []) = .returned s' ∧ s'.viper.ConfigFileUsed = "" ∧
      s'.stderr = (parsed []).stderr ∧ s'.stdout = (parsed []).stdout ∧
      s'.viper.config = (parsed []).viper.config ∧
      ∃ err, readResult bareWorld (parsed []) = .failed err :=
  search_miss_returns_quietly bareWorld (parsed []) "/home/u" rfl rfl (by decide) rfl rfl

/-- C5.  When `cfgFile` is empty and the home directory lookup returns an error,
`initConfig` exits with status 1: the resolver is untouched (no search
directory added, env lookup not enabled, nothing loaded), the config read is
not reached, and only the line `Error: ...` went to standard error. -/
theorem home_failure_exits_first (w : World) (s : State) (err : String)
    (hcfg : s.cfgFile = "") (hhome : w.userHomeDir = .error err) :
    ∃ s', initConfig w s = .exited 1 s' ∧ s'.viper = s.viper ∧
      readResult w s = .notReached ∧
      s'.stderr = s.stderr ++ [sprintln "Error:" err] ∧ s'.stdout = s.stdout := by
  refine ⟨{ s with stderr := s.stderr ++ [sprintln "Error:" err] }, ?_, rfl, ?_, rfl, rfl⟩
  · simp [initConfig, selectConfig_homeless w s err hcfg hhome, Outcome.bind]
  · simp [readResult, beforeRead, selectConfig_homeless w s err hcfg hhome, Outcome.bind]

/-- C5, witness: no flag on the command line, on a machine without home directory. -/
theorem home_failure_exits_first_witness :
    ∃ s', initConfig homelessWorld (parsed []) = .exited 1 s' ∧ s'.viper = (parsed []).viper ∧
      readResult homelessWorld (parsed []) = .notReached ∧
      s'.stderr = (parsed []).stderr ++ [sprintln "Error:" "$HOME is not defined"] ∧
      s'.stdout = (parsed []).stdout :=
  home_failure_exits_first homelessWorld (parsed []) "$HOME is not defined" rfl rfl

/-- C6.  For every run of `initConfig` that returns: nothing goes to standard
output; standard error grows by the one write `Using config file: ` followed by
the file the resolver reports as used and a newline when the read succeeded, and
by nothing when it failed; so exactly one line was written if and only if the
read succeeded. -/
theorem diagnostic_iff_loaded (w : World) (s s' : State) (h : initConfig w s = .returned s') :
    s'.stdout = s.stdout ∧
    s'.stderr = s.stderr ++
      (if readResult w s = .loaded then
        ["Using config file:" ++ " " ++ s'.viper.ConfigFileUsed ++ "\n"]
       else []) ∧
    ((∃ line, s'.stderr = s.stderr ++ [line]) ↔ readResult w s = .loaded) := by
  rw [initConfig_eq] at h
  unfold readResult
  cases hb : beforeRead w s with
  | exited c s0 => simp [hb, Outcome.bind] at h
  | returned s1 =>
    obtain ⟨he, ho, _, _⟩ := beforeRead_streams w s s1 hb
    simp only [hb, Outcome.bind, readAndReport] at h
    split at h
    · rename_i v hr
      cases h
      simp [hr, he, ho, sprintln]
    · rename_i e v hr
      cases h
      simp [hr, he, ho]

/-- C6, witness: the run on the machine whose home directory holds `.aft.yaml`. -/
theorem diagnostic_iff_loaded_witness :
    (initConfig homeFileWorld (parsed [])).state.stdout = (parsed []).stdout ∧
    (initConfig homeFileWorld (parsed [])).state.stderr = (parsed []).stderr ++
      (if readResult homeFileWorld (parsed []) = .loaded then
        ["Using config file:" ++ " " ++
          (initConfig homeFileWorld (parsed [])).state.viper.ConfigFileUsed ++ "\n"]
       else []) ∧
    ((∃ line, (initConfig homeFileWorld (parsed [])).state.stderr = (parsed []).stderr ++ [line]) ↔
      readResult homeFileWorld (parsed []) = .loaded) :=
  diagnostic_iff_loaded homeFileWorld (parsed []) (initConfig homeFileWorld (parsed [])).state (by decide)

/-- C7.  For every non-empty `cfgFile`, `initConfig` returns with the resolver's
config file equal to that string, the search directories, the config name and
the config type as they were, and the whole outcome is the same whatever the
home directory lookup would answer, an error included. -/
theorem explicit_path_bypasses_search (w : World) (s : State) (hcfg : s.cfgFile ≠ "") :
    ∃ s', initConfig w s = .returned s' ∧ s'.viper.configFile = s.cfgFile ∧
      s'.viper.configPaths = s.viper.configPaths ∧
      s'.viper.configName = s.viper.configName ∧
      s'.viper.configType = s.viper.configType ∧
      ∀ home, initConfig { w with userHomeDir := home } s = initConfig w s := by
  obtain ⟨c, lines, h⟩ := initConfig_explicit w s hcfg
  refine ⟨_, h, rfl, rfl, rfl, rfl, ?_⟩
  intro home
  simp [initConfig, selectConfig, hcfg, Outcome.bind, readAndReport, Viper.ReadInConfig,
    Viper.getConfigFile, Viper.findConfigFile]

/-- C7, witness: `--config ./aft.yaml` on a machine without home directory. -/
theorem explicit_path_bypasses_search_witness :
    ∃ s', initConfig homelessWorld (parsed [("config", "./aft.yaml")]) = .returned s' ∧
      s'.viper.configFile = (parsed [("config", "./aft.yaml")]).cfgFile ∧
      s'.viper.configPaths = (parsed [("config", "./aft.yaml")]).viper.configPaths ∧
      s'.viper.configName = (parsed [("config", "./aft.yaml")]).viper.configName ∧
      s'.viper.configType = (parsed [("config", "./aft.yaml")]).viper.configType ∧
      ∀ home, initConfig { homelessWorld with userHomeDir := home }
        (parsed [("config", "./aft.yaml")]) =
        initConfig homelessWorld (parsed [("config", "./aft.yaml")]) :=
  explicit_path_bypasses_search homelessWorld (parsed [("config", "./aft.yaml")]) (by decide)

/-- C8, as amended.  When `cfgFile` is empty, the home directory lookup succeeds
with a non-empty value `home` and the search list is empty before, `initConfig`
returns with the search list made of the absolute form of `home` followed by the
absolute form of `.`, the second left out when it is the same directory as the
first; the config name is `.aft` and the config type `yaml`; and when the home
directory holds a matching file, that file is the one used. -/
theorem search_dirs_home_then_cwd (w : World) (s : State) (home : String)
    (hcfg : s.cfgFile = "") (hhome : w.userHomeDir = .ok home) (hne : home ≠ "")
    (hfresh : s.viper.configPaths = []) :
    ∃ s', initConfig w s = .returned s' ∧
      s'.viper.configPaths =
        (if w.absPathify "." = w.absPathify home then [w.absPathify home]
         else [w.absPathify home, w.absPathify "."]) ∧
      s'.viper.configName = ".aft" ∧ s'.viper.configType = "yaml" ∧
      ∀ file, w.searchInPath (w.absPathify home) ".aft" "yaml" = some file →
        s'.viper.ConfigFileUsed = file := by
  have hb := beforeRead_search w s home hcfg hhome
  have hp : ((s.viper.AddConfigPath w home).AddConfigPath w ".").configPaths =
      (if w.absPathify "." = w.absPathify home then [w.absPathify home]
       else [w.absPathify home, w.absPathify "."]) := by
    by_cases hsame : w.absPathify "." = w.absPathify home
    · simp [Viper.AddConfigPath, hne, hfresh, hsame]
    · simp [Viper.AddConfigPath, hne, hfresh, hsame]
  rw [hp] at hb
  obtain ⟨lines, hr⟩ := readAndReport_returns w { s with viper :=
    { s.viper with
      configPaths := (if w.absPathify "." = w.absPathify home then [w.absPathify home]
        else [w.absPathify home, w.absPathify "."]),
      configType := "yaml", configName := ".aft", configFile := "",
      automaticEnvApplied := true } }
  obtain ⟨f, c, hv, -, -⟩ := ReadInConfig_frame w
    { s.viper with
      configPaths := (if w.absPathify "." = w.absPathify home then [w.absPathify home]
        else [w.absPathify home, w.absPathify "."]),
      configType := "yaml", configName := ".aft", configFile := "",
      automaticEnvApplied := true }
  rw [initConfig_eq, hb]
  simp only [Outcome.bind]
  rw [hr]
  refine ⟨_, rfl, ?_, ?_, ?_, ?_⟩
  · simp only [hv]
  · simp only [hv]
  · simp only [hv]
  · intro file hfile
    apply ReadInConfig_configFile
    simp only [Viper.located, Viper.findConfigFile, if_true]
    split <;> simp [List.findSome?, hfile]

/-- C8, witness: no flag on the command line, on the machine whose home directory holds `.aft.yaml`. -/
theorem search_dirs_home_then_cwd_witness :
    ∃ s', initConfig homeFileWorld (parsed []) = .returned s' ∧
      s'.viper.configPaths =
        (if homeFileWorld.absPathify "." = homeFileWorld.absPathify "/home/u" then
          [homeFileWorld.absPathify "/home/u"]
         else [homeFileWorld.absPathify "/home/u", homeFileWorld.absPathify "."]) ∧
      s'.viper.configName = ".aft" ∧ s'.viper.configType = "yaml" ∧
      ∀ file, homeFileWorld.searchInPath (homeFileWorld.absPathify "/home/u") ".aft" "yaml" =
        some file → s'.viper.ConfigFileUsed = file :=
  search_dirs_home_then_cwd homeFileWorld (parsed []) "/home/u" rfl rfl (by decide) rfl

/-- C8, counterexample.  Started in the home directory (`.` resolves to
`/home/u`, the home directory), `initConfig` leaves one search directory on the
resolver, not two. -/
theorem home_as_working_directory_listed_once :
    (parsed []).cfgFile = "" ∧
    (initConfig atHomeWorld (parsed [])).isReturned = true ∧
    (initConfig atHomeWorld (parsed [])).state.viper.configPaths = ["/home/u"] ∧
    (initConfig atHomeWorld (parsed [])).state.viper.configPaths.length ≠ 2 := by
  decide

/-- C9, as amended.  For every command line, after `init`, the parse and a run
of `initConfig` that returns (explicit path or search), automatic env lookup is
on, no env prefix is set and no key is registered; the variable consulted for a
key is the key upper-cased, with no prefix; and such a variable, when set and not
empty, is the value the lookup gives, for any key. -/
theorem env_lookup_automatic_unprefixed (args : List (String × String)) (w : World)
    (s s' : State) (hparse : afterParse args = some s) (hrun : initConfig w s = .returned s') :
    s'.viper.automaticEnvApplied = true ∧ s'.viper.envPrefix = "" ∧ s'.viper.env = [] ∧
    (∀ key, s'.viper.mergeWithEnvPrefix key = toUpper key) ∧
    (∀ key val, w.lookupEnv (toUpper (toLower key)) = some val → val ≠ "" →
      s'.viper.Get w s'.flags key = some (.str val)) := by
  have hnew := afterParse_viper args s hparse
  obtain ⟨hauto, hpre, hov, hpf, henv, -⟩ := initConfig_layers w s s' hrun
  rw [hnew] at hpre hov hpf henv
  have hpre0 : s'.viper.envPrefix = "" := hpre
  refine ⟨hauto, hpre0, henv, ?_, ?_⟩
  · intro key
    simp [Viper.mergeWithEnvPrefix, hpre0]
  · intro key val hval hne
    exact Get_environment w s'.flags s'.viper key val hauto hpre0 hov hpf hval hne

/-- C9, witness: no flag on the command line, `AFT_REGION` set, `REGION` not set. -/
theorem env_lookup_automatic_unprefixed_witness :
    (initConfig prefixedEnvWorld (parsed [])).state.viper.automaticEnvApplied = true ∧
    (initConfig prefixedEnvWorld (parsed [])).state.viper.envPrefix = "" ∧
    (initConfig prefixedEnvWorld (parsed [])).state.viper.env = [] ∧
    (∀ key, (initConfig prefixedEnvWorld (parsed [])).state.viper.mergeWithEnvPrefix key =
      toUpper key) ∧
    (∀ key val, prefixedEnvWorld.lookupEnv (toUpper (toLower key)) = some val → val ≠ "" →
      (initConfig prefixedEnvWorld (parsed [])).state.viper.Get prefixedEnvWorld
        (initConfig prefixedEnvWorld (parsed [])).state.flags key = some (.str val)) :=
  env_lookup_automatic_unprefixed [] prefixedEnvWorld (parsed [])
    (initConfig prefixedEnvWorld (parsed [])).state (by decide) (by decide)

/-- C9, counterexample.  After the bootstrap the variable consulted for `region`
is `REGION`: it carries no prefix, and with `AFT_REGION=us-west-2` in the
environment the lookup of `region` finds nothing. -/
theorem env_name_carries_no_prefix :
    (initConfig prefixedEnvWorld (parsed [])).isReturned = true ∧
    (initConfig prefixedEnvWorld (parsed [])).state.viper.mergeWithEnvPrefix "region" = "REGION" ∧
    (¬ ∃ p : String, p ≠ "" ∧
      (initConfig prefixedEnvWorld (parsed [])).state.viper.mergeWithEnvPrefix "region" =
        p ++ toUpper "region") ∧
    prefixedEnvWorld.lookupEnv "AFT_REGION" = some "us-west-2" ∧
    (initConfig prefixedEnvWorld (parsed [])).state.viper.Get prefixedEnvWorld
      (initConfig prefixedEnvWorld (parsed [])).state.flags "region" = none := by
  refine ⟨by decide, by decide, ?_, by decide, by decide⟩
  rintro ⟨p, hp, h⟩
  have h1 : (initConfig prefixedEnvWorld (parsed [])).state.viper.mergeWithEnvPrefix "region" =
      "REGION" := by decide
  have h2 : toUpper "region" = "REGION" := by decide
  rw [h1, h2] at h
  have h3 := congrArg String.length h
  rw [String.length_append] at h3
  have h4 : p.length = 0 := by
    have : ("REGION" : String).length = 6 := by decide
    omega
  apply hp
  cases p with
  | mk data =>
    cases data with
    | nil => rfl
    | cons a l => simp [String.length] at h4

/-- C10.  From the start state `init` registers exactly six persistent flags, in
this order: config (no shorthand, string, default empty), profile (p, string,
empty), region (r, string, empty), output (o, string, default `table`), verbose
(v, bool, false), quiet (q, bool, false); each holds its default, `cfgFile` is
empty and `initConfig` is the one initializer; and after the parse of any
command line that does not supply output, the output flag holds exactly `table`. -/
theorem init_registers_six_flags :
    (∃ s, init start = some s ∧ s.cfgFile = "" ∧ s.initializers = [Initializer.initConfig] ∧
      s.flags.map (fun f => (f.name, f.shorthand, f.typ, f.defValue, f.value, f.changed)) =
        [("config", "", "string", "", "", false),
         ("profile", "p", "string", "", "", false),
         ("region", "r", "string", "", "", false),
         ("output", "o", "string", "table", "table", false),
         ("verbose", "v", "bool", "false", "false", false),
         ("quiet", "q", "bool", "false", "false", false)]) ∧
    ∀ args s, afterParse args = some s → (∀ a ∈ args, a.1 ≠ "output") →
      flagText s "output" = some "table" := by
  refine ⟨⟨(init start).getD start, by decide, by decide, by decide, by decide⟩, ?_⟩
  intro args s h hargs
  rw [afterParse_other "output" args s hargs h]
  decide

/-- C10, witness: a command line with `--profile dev --verbose`, output not supplied. -/
theorem init_registers_six_flags_witness :
    flagText (parsed [("profile", "dev"), ("verbose", "true")]) "output" = some "table" :=
  init_registers_six_flags.2 [("profile", "dev"), ("verbose", "true")]
    (parsed [("profile", "dev"), ("verbose", "true")]) (by decide) (by decide)

end AftCli
